import Mathlib

/-!
# Message registry of `leaf_processor.go`

A shallow embedding of the `Proccessor` type and of its four methods
`Register`, `Route`, `Unmarshal` and `Marshal`.

* `reflect.Type` values are `RType`; an `interface{}` is an `Option Value`
  (`none` is the nil interface, whose `reflect.TypeOf` is nil).
* The method sets of the types, the two codec methods and the `chanrpc`
  call are collaborators that live outside the file: they are the fields of
  `Env`, and every definition takes the environment as a parameter.
* `uint16` ids and bytes are natural numbers; the conversions between them
  carry their `%` explicitly.
* A method returns its Go result together with the list of the effects it
  performed (table reads, allocations, codec and dispatcher calls), in
  program order.
-/

namespace LeafProcessor

/-! ## Values and types seen through `reflect` -/

/-- A `reflect.Type`: a named type or a pointer to a type. -/
inductive RType where
  | named (n : Nat)
  | ptr (elem : RType)
  deriving DecidableEq, Repr

/-- The test `t.Kind() == reflect.Ptr`. -/
def RType.isPtr : RType → Bool
  | .named _ => false
  | .ptr _ => true

/-- The call `t.Elem()`; `none` stands for its panic on a type without element. -/
def RType.Elem : RType → Option RType
  | .named _ => none
  | .ptr e => some e

/-- A dynamic value: its type and its contents, which the processor never inspects. -/
structure Value where
  typ : RType
  data : List Nat
  deriving DecidableEq, Repr

/-- The function `reflect.TypeOf` on an `interface{}`. -/
def TypeOf : Option Value → Option RType
  | none => none
  | some v => some v.typ

/-- The call `reflect.New(e)`: a pointer to a zero value of `e`. -/
def reflectNew (e : RType) : Value :=
  { typ := .ptr e, data := [] }

/-- The two method names the processor looks up. -/
inductive MethodName where
  | MarshalBinary
  | UnmarshalBinary
  deriving DecidableEq, Repr

/-- One result value of a reflective method call. -/
inductive RValue where
  | bytes (b : List Nat)
  | err (e : Option String)
  | other
  deriving DecidableEq, Repr

/-- A `*chanrpc.Server` that is not nil. -/
structure Server where
  handle : Nat
  deriving DecidableEq, Repr

/-- The collaborators of the processor. -/
structure Env where
  /-- Whether `MethodByName` finds the method in the method set of the type. -/
  hasMethod : RType → MethodName → Bool
  /-- The reflective call of `MarshalBinary` on a value, without arguments: the
  results it returns, or `none` when the call panics, because the method found under
  that name takes parameters or panics itself. -/
  marshalBinary : Value → Option (List RValue)
  /-- The reflective call of `UnmarshalBinary` on a receiver with one `[]byte`: the
  contents of the receiver afterwards and the results returned, or `none` when the
  call panics, because the method found under that name does not take one `[]byte`
  or panics itself. -/
  unmarshalBinary : Value → List Nat → Option (List Nat × List RValue)
  /-- The error `Call0` returns (`none` is nil). -/
  call0 : Server → Option RType → Option Value → Option Value → Option String

/-! ## The registry -/

/-- The struct `MsgInfo`; both fields may be nil. -/
structure MsgInfo where
  msgType : Option RType
  msgRouter : Option Server
  deriving DecidableEq, Repr

/-- The struct `Proccessor`. The table `msgInfoArr` is indexed by the id, a slot is
a pointer (`none` is nil); `msgIDMap` is a Go map keyed by `reflect.Type`, `none`
for the nil map. -/
structure Proccessor where
  msgInfoArr : Nat → Option MsgInfo
  msgIDMap : Option (Option RType → Option Nat)

/-- A read `m[k]` of the map with its `ok` flag; reading a nil map finds nothing. -/
def mapGet (m : Option (Option RType → Option Nat)) (k : Option RType) : Option Nat :=
  match m with
  | none => none
  | some f => f k

/-- The constructor `NewProcessor`: an empty table and an allocated, empty map. -/
def NewProcessor : Proccessor :=
  { msgInfoArr := fun _ => none, msgIDMap := some (fun _ => none) }

/-- The panics of `Register`, by the place that raises them. -/
inductive RegPanic where
  | pointerRequired
  | noMarshalBinary (t : RType)
  | noUnmarshalBinary (t : RType)
  | alreadyRegistered (t : RType)
  | invalidChanrpc
  | nilMapAssign
  deriving DecidableEq, Repr

/-- The method `Register`: the registry after the call and the panic that ended it,
if any. -/
def Register (env : Env) (p : Proccessor) (msgID : Nat) (msg : Option Value)
    (chanRPC : Option Server) : Proccessor × Option RegPanic :=
  match TypeOf msg with
  | none => (p, some .pointerRequired)
  | some msgType =>
    if msgType.isPtr = false then (p, some .pointerRequired)
    else if env.hasMethod msgType .MarshalBinary = false then
      (p, some (.noMarshalBinary msgType))
    else if env.hasMethod msgType .UnmarshalBinary = false then
      (p, some (.noUnmarshalBinary msgType))
    else if (mapGet p.msgIDMap (some msgType)).isSome then
      (p, some (.alreadyRegistered msgType))
    else
      match chanRPC with
      | none => (p, some .invalidChanrpc)
      | some s =>
        let i : MsgInfo := { msgRouter := some s, msgType := some msgType }
        let p1 : Proccessor :=
          { p with msgInfoArr := Function.update p.msgInfoArr msgID (some i) }
        match p1.msgIDMap with
        | none => (p1, some .nilMapAssign)
        | some m =>
          ({ p1 with msgIDMap := some (Function.update m (some msgType) (some msgID)) }, none)

/-! ## Results and effects of the serving methods -/

/-- The errors the serving methods return, by the place that builds them. -/
inductive ProcError where
  | routeNotRegistered (t : Option RType)
  | routeNoInfo (t : Option RType)
  | routeInvalidChanrpc
  | routeCall (e : String)
  | unmarshalShort
  | unmarshalInvalidID (id : Nat)
  | unmarshalNoMethod (t : RType)
  | marshalIDNotFound (t : Option RType)
  | marshalNoMethod (t : RType)
  | marshalFailed (t : RType)
  deriving DecidableEq, Repr

/-- The run-time panics of the serving methods. -/
inductive RunPanic where
  | nilDereference
  | elemOfNonPointer
  | typeAssertion
  | reflectCall
  deriving DecidableEq, Repr

/-- What a serving method hands back: a value with a nil error, an error with no
value, or a panic. -/
inductive Res (α : Type) where
  | ok (a : α)
  | error (e : ProcError)
  | panic (q : RunPanic)
  deriving DecidableEq, Repr

/-- The effects a serving method performs; `decode` and `encode` record the reflective
call of the codec method, whether it returns or panics. -/
inductive Event where
  | readTable (id : Nat)
  | alloc (e : RType)
  | decode (recv : Value) (arg : List Nat)
  | encode (recv : Value)
  | dispatch (s : Server) (t : Option RType) (msg : Option Value) (userData : Option Value)
  deriving DecidableEq, Repr

/-- The conversion `byte(n)`. -/
def byte (n : Nat) : Nat := n % 256

/-- The call `binary.BigEndian.PutUint16` on a fresh 2-byte slice. -/
def PutUint16 (v : Nat) : List Nat :=
  [byte (v / 256), byte v]

/-- The call `binary.BigEndian.Uint16` on a slice of two bytes or more. -/
def Uint16 (b : List Nat) : Nat :=
  (byte (b.getD 1 0) + byte (b.getD 0 0) * 256) % 65536

/-- A Go `error` handed back as the only result: nil is success. -/
def resOfError : Option String → Res Unit
  | none => .ok ()
  | some e => .error (.routeCall e)

/-- The method `Route`. -/
def Route (env : Env) (p : Proccessor) (msg userData : Option Value) :
    Res Unit × List Event :=
  let msgType := TypeOf msg
  match mapGet p.msgIDMap msgType with
  | none => (.error (.routeNotRegistered msgType), [])
  | some msgID =>
    match p.msgInfoArr msgID with
    | none => (.error (.routeNoInfo msgType), [.readTable msgID])
    | some info =>
      match info.msgRouter with
      | none => (.error .routeInvalidChanrpc, [.readTable msgID])
      | some s =>
        (resOfError (env.call0 s msgType msg userData),
          [.readTable msgID, .dispatch s msgType msg userData])

/-- The method `Unmarshal`. -/
def Unmarshal (env : Env) (p : Proccessor) (data : List Nat) :
    Res Value × List Event :=
  if data.length < 2 then (.error .unmarshalShort, [])
  else
    let msgID := Uint16 (data.take 2)
    match p.msgInfoArr msgID with
    | none => (.error (.unmarshalInvalidID msgID), [.readTable msgID])
    | some info =>
      match info.msgType with
      | none => (.panic .nilDereference, [.readTable msgID])
      | some msgType =>
        match msgType.Elem with
        | none => (.panic .elemOfNonPointer, [.readTable msgID])
        | some e =>
          let msg := reflectNew e
          if env.hasMethod msg.typ .UnmarshalBinary = false then
            (.error (.unmarshalNoMethod msgType), [.readTable msgID, .alloc e])
          else
            let arg := data.drop 2
            match env.unmarshalBinary msg arg with
            | none =>
              (.panic .reflectCall, [.readTable msgID, .alloc e, .decode msg arg])
            | some out =>
              (.ok { msg with data := out.1 },
                [.readTable msgID, .alloc e, .decode msg arg])

/-- The method `Marshal`. -/
def Marshal (env : Env) (p : Proccessor) (msg : Option Value) :
    Res (List (List Nat)) × List Event :=
  let msgType := TypeOf msg
  match mapGet p.msgIDMap msgType with
  | none => (.error (.marshalIDNotFound msgType), [])
  | some msgID =>
    match msg with
    | none => (.panic .nilDereference, [])
    | some v =>
      if env.hasMethod v.typ .MarshalBinary = false then
        (.error (.marshalNoMethod v.typ), [])
      else
        match env.marshalBinary v with
        | none => (.panic .reflectCall, [.encode v])
        | some [] => (.error (.marshalFailed v.typ), [.encode v])
        | some (r0 :: _) =>
          let idBin := PutUint16 msgID
          match r0 with
          | .bytes msgBin => (.ok [idBin, msgBin], [.encode v])
          | _ => (.panic .typeAssertion, [.encode v])

/-! ## Sequences of registrations -/

/-- The arguments of one `Register` call. -/
structure RegCall where
  msgID : Nat
  msg : Option Value
  chanRPC : Option Server
  deriving DecidableEq, Repr

/-- Runs the calls in order; `none` as soon as one of them panics or passes an id
that is no `uint16`. -/
def registerAll (env : Env) : Proccessor → List RegCall → Option Proccessor
  | p, [] => some p
  | p, c :: cs =>
    if c.msgID < 65536 then
      match Register env p c.msgID c.msg c.chanRPC with
      | (p1, none) => registerAll env p1 cs
      | (_, some _) => none
    else none

/-- The registry `p` is what `NewProcessor` becomes after the successful calls `cs`. -/
def Reached (env : Env) (cs : List RegCall) (p : Proccessor) : Prop :=
  registerAll env NewProcessor cs = some p

/-- The entry a successful call writes into its table slot. -/
def infoOf (c : RegCall) : MsgInfo :=
  { msgType := TypeOf c.msg, msgRouter := c.chanRPC }

/-- The arguments pass every check of `Register` that does not look at the registry. -/
def GoodCall (env : Env) (c : RegCall) : Prop :=
  c.msgID < 65536 ∧ ∃ v s, c.msg = some v ∧ v.typ.isPtr = true ∧
    env.hasMethod v.typ .MarshalBinary = true ∧
    env.hasMethod v.typ .UnmarshalBinary = true ∧ c.chanRPC = some s

/-- The facts that hold of a registry together with the calls that built it. -/
structure Inv (env : Env) (cs : List RegCall) (p : Proccessor) : Prop where
  alloc : ∃ m, p.msgIDMap = some m
  map_sound : ∀ k i, mapGet p.msgIDMap k = some i →
    ∃ c ∈ cs, TypeOf c.msg = k ∧ c.msgID = i
  map_complete : ∀ c ∈ cs, mapGet p.msgIDMap (TypeOf c.msg) = some c.msgID
  arr_last : ∀ i, p.msgInfoArr i =
    (cs.reverse.find? (fun c => decide (c.msgID = i))).map infoOf
  good : ∀ c ∈ cs, GoodCall env c

/-! ## A concrete environment -/

/-- The type `*Ping`. -/
def pingT : RType := .ptr (.named 0)

/-- The type `*Pong`. -/
def pongT : RType := .ptr (.named 1)

/-- A `&Ping{}`. -/
def ping : Value := { typ := pingT, data := [] }

/-- A `&Pong{}`. -/
def pong : Value := { typ := pongT, data := [] }

/-- Every pointer type has both codec methods; encoding returns the contents and a
nil error, decoding stores the bytes, the dispatcher accepts every call. -/
def demoEnv : Env :=
  { hasMethod := fun t _ => t.isPtr
    marshalBinary := fun v => some [.bytes v.data, .err none]
    unmarshalBinary := fun _ arg => some (arg, [.err none])
    call0 := fun _ _ _ _ => none }

/-- As `demoEnv`, but `MarshalBinary` returns `(nil, err)` with a non-nil error. -/
def failingEnv : Env :=
  { demoEnv with
    marshalBinary := fun _ => some [.bytes [], .err (some "encode failed")] }

/-- Registers `*Ping` with id 1 and dispatcher 7. -/
def pingCalls : List RegCall :=
  [{ msgID := 1, msg := some ping, chanRPC := some ⟨7⟩ }]

/-- The registry after `pingCalls`. -/
def pingRegistry : Proccessor :=
  (Register demoEnv NewProcessor 1 (some ping) (some ⟨7⟩)).1

/-- Registers `*Ping` and then `*Pong`, both with id 1. -/
def clashCalls : List RegCall :=
  [{ msgID := 1, msg := some ping, chanRPC := some ⟨7⟩ },
   { msgID := 1, msg := some pong, chanRPC := some ⟨8⟩ }]

/-- The registry after `clashCalls`. -/
def clashRegistry : Proccessor :=
  (Register demoEnv pingRegistry 1 (some pong) (some ⟨8⟩)).1

/-- Registers `*Ping` with id 1 and `*Pong` with id 2. -/
def pairCalls : List RegCall :=
  [{ msgID := 1, msg := some ping, chanRPC := some ⟨7⟩ },
   { msgID := 2, msg := some pong, chanRPC := some ⟨8⟩ }]

/-- The registry after `pairCalls`. -/
def pairRegistry : Proccessor :=
  (Register demoEnv pingRegistry 2 (some pong) (some ⟨8⟩)).1

/-- As `demoEnv`, but the method found under the name `UnmarshalBinary` takes no
parameter, so the reflective call with one `[]byte` panics. -/
def brokenEnv : Env :=
  { demoEnv with unmarshalBinary := fun _ _ => none }

/-- The type `*Pang`. -/
def pangT : RType := .ptr (.named 2)

/-- A `&Pang{}`. -/
def pang : Value := { typ := pangT, data := [] }

/-- Registers `*Ping`, then `*Pong`, then `*Pang`, all three with id 1. -/
def tripleCalls : List RegCall :=
  [{ msgID := 1, msg := some ping, chanRPC := some ⟨7⟩ },
   { msgID := 1, msg := some pong, chanRPC := some ⟨8⟩ },
   { msgID := 1, msg := some pang, chanRPC := some ⟨9⟩ }]

/-- The registry after `tripleCalls`. -/
def tripleRegistry : Proccessor :=
  (Register demoEnv clashRegistry 1 (some pang) (some ⟨9⟩)).1

/-- Runs the calls in order, whether they succeed or panic, each on the registry the
call before it left behind. -/
def registerEach (env : Env) : Proccessor → List RegCall → Proccessor
  | p, [] => p
  | p, c :: cs => registerEach env (Register env p c.msgID c.msg c.chanRPC).1 cs

/-- The ids passed by those of the calls run by `registerEach` that succeed. -/
def succeededIds (env : Env) : Proccessor → List RegCall → List Nat
  | _, [] => []
  | p, c :: cs =>
    match Register env p c.msgID c.msg c.chanRPC with
    | (p1, none) => c.msgID :: succeededIds env p1 cs
    | (p1, some _) => succeededIds env p1 cs

/-! ## Facts about `Register` -/

theorem Register_success {env : Env} {p p1 : Proccessor} {msgID : Nat}
    {msg : Option Value} {chanRPC : Option Server}
    (h : Register env p msgID msg chanRPC = (p1, none)) :
    ∃ v s m, msg = some v ∧ chanRPC = some s ∧ p.msgIDMap = some m ∧
      v.typ.isPtr = true ∧ env.hasMethod v.typ .MarshalBinary = true ∧
      env.hasMethod v.typ .UnmarshalBinary = true ∧ m (some v.typ) = none ∧
      p1 = { msgInfoArr := Function.update p.msgInfoArr msgID
               (some { msgType := some v.typ, msgRouter := some s })
             msgIDMap := some (Function.update m (some v.typ) (some msgID)) } := by
  cases msg with
  | none => simp [Register, TypeOf] at h
  | some v =>
    cases chanRPC with
    | none =>
      simp only [Register, TypeOf] at h
      split_ifs at h <;> simp at h
    | some s =>
      cases hm : p.msgIDMap with
      | none =>
        simp only [Register, TypeOf, hm] at h
        split_ifs at h <;> simp at h
      | some m =>
        simp only [Register, TypeOf, hm, mapGet] at h
        split_ifs at h with h1 h2 h3 h4
        all_goals first
          | (simp at h; done)
          | skip
        refine ⟨v, s, m, rfl, rfl, rfl, ?_, ?_, ?_, ?_, ?_⟩
        · simpa using h1
        · simpa using h2
        · simpa using h3
        · simpa using h4
        · simp only [Prod.mk.injEq, and_true] at h
          exact h.symm

/-! ## Facts about sequences of registrations -/

theorem registerAll_append (env : Env) (cs ds : List RegCall) (p : Proccessor) :
    registerAll env p (cs ++ ds) =
      (registerAll env p cs).bind (fun q => registerAll env q ds) := by
  induction cs generalizing p with
  | nil => simp [registerAll]
  | cons c cs ih =>
    simp only [List.cons_append, registerAll]
    split_ifs with hc
    · rcases hr : Register env p c.msgID c.msg c.chanRPC with ⟨p1, _ | e⟩
      · simpa using ih p1
      · simp
    · simp

theorem Reached_nil {env : Env} {p : Proccessor} (h : Reached env [] p) :
    p = NewProcessor := by
  simpa [Reached, registerAll, eq_comm] using h

theorem Reached_snoc {env : Env} {cs : List RegCall} {c : RegCall} {p1 : Proccessor}
    (h : Reached env (cs ++ [c]) p1) :
    ∃ p, Reached env cs p ∧ c.msgID < 65536 ∧
      Register env p c.msgID c.msg c.chanRPC = (p1, none) := by
  unfold Reached at h
  rw [registerAll_append] at h
  cases hp : registerAll env NewProcessor cs with
  | none => simp [hp] at h
  | some p =>
    refine ⟨p, hp, ?_⟩
    simp only [hp, Option.some_bind, registerAll] at h
    split_ifs at h with hc
    refine ⟨hc, ?_⟩
    rcases hr : Register env p c.msgID c.msg c.chanRPC with ⟨q, _ | e⟩
    · simp only [hr, Option.some.injEq] at h
      rw [h]
    · simp [hr] at h

theorem Inv_step {env : Env} {cs : List RegCall} {c : RegCall} {p p1 : Proccessor}
    (hi : Inv env cs p) (hc : c.msgID < 65536)
    (hr : Register env p c.msgID c.msg c.chanRPC = (p1, none)) :
    Inv env (cs ++ [c]) p1 := by
  obtain ⟨v, s, m, hv, hs, hm, hptr, hM, hU, hfree, rfl⟩ := Register_success hr
  have htyp : TypeOf c.msg = some v.typ := by rw [hv]; rfl
  refine ⟨⟨_, rfl⟩, ?_, ?_, ?_, ?_⟩
  · intro k i hk
    simp only [mapGet, Function.update_apply] at hk
    split_ifs at hk with hkk
    · exact ⟨c, by simp, by rw [htyp, hkk], by simpa using hk⟩
    · obtain ⟨d, hd, h1, h2⟩ := hi.map_sound k i (by simpa [hm, mapGet] using hk)
      exact ⟨d, by simp [hd], h1, h2⟩
  · intro d hd
    rcases List.mem_append.1 hd with hd | hd
    · have := hi.map_complete d hd
      simp only [hm, mapGet] at this
      simp only [mapGet, Function.update_apply]
      split_ifs with hkk
      · rw [hkk, hfree] at this
        simp at this
      · exact this
    · have hdc : d = c := by simpa using hd
      subst hdc
      simp only [mapGet]
      rw [htyp]
      exact Function.update_same _ _ _
  · intro i
    simp only [List.reverse_append, List.reverse_cons, List.reverse_nil, List.nil_append,
      List.singleton_append, List.find?_cons, Function.update_apply]
    by_cases hci : c.msgID = i
    · simp [hci, infoOf, htyp, hs]
    · have hic : ¬ i = c.msgID := fun h => hci h.symm
      simp [hci, hic, hi.arr_last i]
  · intro d hd
    rcases List.mem_append.1 hd with hd | hd
    · exact hi.good d hd
    · have hdc : d = c := by simpa using hd
      subst hdc
      exact ⟨hc, v, s, hv, hptr, hM, hU, hs⟩

theorem Reached_Inv {env : Env} {cs : List RegCall} {p : Proccessor}
    (h : Reached env cs p) : Inv env cs p := by
  induction cs using List.reverseRecOn generalizing p with
  | nil =>
    rw [Reached_nil h]
    exact ⟨⟨_, rfl⟩, by simp [NewProcessor, mapGet], by simp, by simp [NewProcessor],
      by simp⟩
  | append_singleton cs c ih =>
    obtain ⟨q, hq, hc, hr⟩ := Reached_snoc h
    exact Inv_step (ih hq) hc hr

theorem Inv.arr_sound {env : Env} {cs : List RegCall} {p : Proccessor}
    (hi : Inv env cs p) {i : Nat} {info : MsgInfo} (h : p.msgInfoArr i = some info) :
    ∃ c ∈ cs, c.msgID = i ∧ info = infoOf c := by
  rw [hi.arr_last i] at h
  cases hf : cs.reverse.find? (fun c => decide (c.msgID = i)) with
  | none => simp [hf] at h
  | some c =>
    simp only [hf, Option.map_some', Option.some.injEq] at h
    have h1 := List.find?_some hf
    have h2 := List.mem_of_find?_eq_some hf
    exact ⟨c, by simpa using h2, by simpa using h1, h.symm⟩

theorem Inv.arr_none {env : Env} {cs : List RegCall} {p : Proccessor}
    (hi : Inv env cs p) {i : Nat} (h : ∀ c ∈ cs, c.msgID ≠ i) :
    p.msgInfoArr i = none := by
  rw [hi.arr_last i]
  have : cs.reverse.find? (fun c => decide (c.msgID = i)) = none := by
    rw [List.find?_eq_none]
    intro c hc
    simpa using h c (by simpa using hc)
  simp [this]

theorem Inv.arr_of_nodup {env : Env} {cs : List RegCall} {p : Proccessor}
    (hi : Inv env cs p) (hn : (cs.map (fun c => c.msgID)).Nodup)
    {c : RegCall} (hc : c ∈ cs) : p.msgInfoArr c.msgID = some (infoOf c) := by
  cases hf : p.msgInfoArr c.msgID with
  | none =>
    rw [hi.arr_last] at hf
    simp only [Option.map_eq_none', List.find?_eq_none] at hf
    have := hf c (by simpa using hc)
    simp at this
  | some info =>
    obtain ⟨d, hd, hid, hinfo⟩ := hi.arr_sound hf
    have : d = c := List.inj_on_of_nodup_map hn hd hc hid
    rw [hinfo, this]

theorem Inv.id_lt {env : Env} {cs : List RegCall} {p : Proccessor}
    (hi : Inv env cs p) {k : Option RType} {i : Nat}
    (h : mapGet p.msgIDMap k = some i) : i < 65536 := by
  obtain ⟨c, hc, _, rfl⟩ := hi.map_sound k i h
  exact (hi.good c hc).1

theorem Uint16_PutUint16 (i : Nat) (b : List Nat) (h : i < 65536) :
    Uint16 ((PutUint16 i ++ b).take 2) = i := by
  simp only [PutUint16, Uint16, byte, List.cons_append, List.nil_append, List.take_succ_cons,
    List.take_zero, List.getD_cons_succ, List.getD_cons_zero]
  omega

theorem PutUint16_eq (i : Nat) (h : i < 65536) : PutUint16 i = [i / 256, i % 256] := by
  simp only [PutUint16, byte]
  have : i / 256 % 256 = i / 256 := by omega
  rw [this]

theorem RType.eq_ptr_of_isPtr {t : RType} (h : t.isPtr = true) : ∃ e, t = .ptr e := by
  cases t with
  | named n => simp [RType.isPtr] at h
  | ptr e => exact ⟨e, rfl⟩

theorem Reached_pingRegistry : Reached demoEnv pingCalls pingRegistry := rfl

theorem Reached_clashRegistry : Reached demoEnv clashCalls clashRegistry := rfl

theorem Reached_pairRegistry : Reached demoEnv pairCalls pairRegistry := rfl

theorem Register_panic_unchanged {env : Env} {p : Proccessor} {msgID : Nat}
    {msg : Option Value} {chanRPC : Option Server}
    (hmap : p.msgIDMap.isSome = true)
    (h : (Register env p msgID msg chanRPC).2 ≠ none) :
    (Register env p msgID msg chanRPC).1 = p := by
  obtain ⟨m, hm⟩ := Option.isSome_iff_exists.1 hmap
  cases ht : TypeOf msg with
  | none => simp [Register, ht]
  | some t =>
    simp only [Register, ht, hm] at h ⊢
    cases h1 : t.isPtr <;> cases h2 : env.hasMethod t .MarshalBinary <;>
      cases h3 : env.hasMethod t .UnmarshalBinary <;>
      cases h4 : mapGet (some m) (some t) <;> cases chanRPC <;>
      simp [h1, h2, h3, h4] at h ⊢

theorem Unmarshal_of_slot (env : Env) (p : Proccessor) (data : List Nat)
    (hlen : 2 ≤ data.length) (info : MsgInfo) (e : RType)
    (hslot : p.msgInfoArr (Uint16 (data.take 2)) = some info)
    (hT : info.msgType = some (.ptr e))
    (hU : env.hasMethod (.ptr e) .UnmarshalBinary = true) :
    Unmarshal env p data =
      (match env.unmarshalBinary (reflectNew e) (data.drop 2) with
        | none => .panic .reflectCall
        | some out => .ok { typ := .ptr e, data := out.1 },
        [.readTable (Uint16 (data.take 2)), .alloc e,
          .decode (reflectNew e) (data.drop 2)]) := by
  have hl : ¬ data.length < 2 := by omega
  have hU1 : env.hasMethod (reflectNew e).typ .UnmarshalBinary = true := hU
  simp only [Unmarshal, hl, if_false, hslot, hT, RType.Elem]
  rw [if_neg (by simp [hU1])]
  cases env.unmarshalBinary (reflectNew e) (data.drop 2) <;> simp [reflectNew]

theorem Inv.slot_good {env : Env} {cs : List RegCall} {p : Proccessor}
    (hi : Inv env cs p) {i : Nat} {info : MsgInfo} (h : p.msgInfoArr i = some info) :
    ∃ e D, info.msgType = some (.ptr e) ∧ info.msgRouter = some D ∧
      env.hasMethod (.ptr e) .MarshalBinary = true ∧
      env.hasMethod (.ptr e) .UnmarshalBinary = true := by
  obtain ⟨c, hc, _, rfl⟩ := hi.arr_sound h
  obtain ⟨_, u, s, hu, hptr, hM, hU, hs⟩ := hi.good c hc
  obtain ⟨e, he⟩ := RType.eq_ptr_of_isPtr hptr
  rw [he] at hM hU
  exact ⟨e, s, by simp [infoOf, hu, TypeOf, he], by simp [infoOf, hs], hM, hU⟩

theorem Inv.slot_of_map {env : Env} {cs : List RegCall} {p : Proccessor}
    (hi : Inv env cs p) {k : Option RType} {i : Nat}
    (h : mapGet p.msgIDMap k = some i) : ∃ info, p.msgInfoArr i = some info := by
  obtain ⟨c, hc, _, hid⟩ := hi.map_sound k i h
  cases hs : p.msgInfoArr i with
  | some info => exact ⟨info, rfl⟩
  | none =>
    exfalso
    rw [hi.arr_last] at hs
    simp only [Option.map_eq_none', List.find?_eq_none] at hs
    have := hs c (by simpa using hc)
    simp [hid] at this

theorem Inv.type_good {env : Env} {cs : List RegCall} {p : Proccessor}
    (hi : Inv env cs p) {k : Option RType} {i : Nat}
    (h : mapGet p.msgIDMap k = some i) :
    ∃ e, k = some (.ptr e) ∧ env.hasMethod (.ptr e) .MarshalBinary = true ∧
      env.hasMethod (.ptr e) .UnmarshalBinary = true := by
  obtain ⟨c, hc, hty, _⟩ := hi.map_sound k i h
  obtain ⟨_, u, s, hu, hptr, hM, hU, _⟩ := hi.good c hc
  obtain ⟨e, he⟩ := RType.eq_ptr_of_isPtr hptr
  rw [he] at hM hU
  exact ⟨e, by rw [← hty, hu]; simp [TypeOf, he], hM, hU⟩

/-! ## C1: the two lookup structures are mutual inverses -/

/-- C1, counterexample: after the successful calls `Register(1, &Ping{}, 7)` and
`Register(1, &Pong{}, 8)` the map sends `*Ping` to id 1, yet slot 1 of the table
holds `*Pong`, and both distinct types have id 1. -/
theorem C1_counterexample :
    Reached demoEnv clashCalls clashRegistry ∧
    mapGet clashRegistry.msgIDMap (some pingT) = some 1 ∧
    clashRegistry.msgInfoArr 1 = some { msgType := some pongT, msgRouter := some ⟨8⟩ } ∧
    mapGet clashRegistry.msgIDMap (some pongT) = some 1 ∧
    pingT ≠ pongT :=
  ⟨rfl, rfl, rfl, rfl, by decide⟩

/-- C1, amended: in a registry reached from `NewProcessor` by successful `Register`
calls whose ids are pairwise distinct, `msgIDMap` and `msgInfoArr` are mutual
inverses: a type mapped to `i` is the type of the non-empty slot `i`, the type of a
non-empty slot `i` is mapped to `i`, and no two registered types share an id. -/
theorem C1_mutual_inverse (env : Env) (cs : List RegCall) (p : Proccessor)
    (h : Reached env cs p) (hn : (cs.map (fun c => c.msgID)).Nodup) :
    (∀ t i, mapGet p.msgIDMap t = some i →
      ∃ info, p.msgInfoArr i = some info ∧ info.msgType = t) ∧
    (∀ i info, p.msgInfoArr i = some info → mapGet p.msgIDMap info.msgType = some i) ∧
    (∀ t1 t2 i, mapGet p.msgIDMap t1 = some i → mapGet p.msgIDMap t2 = some i →
      t1 = t2) := by
  have hi := Reached_Inv h
  have key : ∀ t i, mapGet p.msgIDMap t = some i →
      ∃ info, p.msgInfoArr i = some info ∧ info.msgType = t := by
    intro t i ht
    obtain ⟨c, hc, hty, hid⟩ := hi.map_sound t i ht
    refine ⟨infoOf c, ?_, hty⟩
    rw [← hid]
    exact hi.arr_of_nodup hn hc
  refine ⟨key, ?_, ?_⟩
  · intro i info hinfo
    obtain ⟨c, hc, hid, rfl⟩ := hi.arr_sound hinfo
    rw [← hid]
    exact hi.map_complete c hc
  · intro t1 t2 i h1 h2
    obtain ⟨a, ha, hta⟩ := key t1 i h1
    obtain ⟨b, hb, htb⟩ := key t2 i h2
    rw [ha] at hb
    cases hb
    rw [← hta, ← htb]

/-- C1, witness: the registry built by `Register(1, &Ping{}, 7)` and
`Register(2, &Pong{}, 8)`. -/
theorem C1_mutual_inverse_witness :
    Reached demoEnv pairCalls pairRegistry ∧
    (pairCalls.map (fun c => c.msgID)).Nodup ∧
    ((∀ t i, mapGet pairRegistry.msgIDMap t = some i →
      ∃ info, pairRegistry.msgInfoArr i = some info ∧ info.msgType = t) ∧
    (∀ i info, pairRegistry.msgInfoArr i = some info →
      mapGet pairRegistry.msgIDMap info.msgType = some i) ∧
    (∀ t1 t2 i, mapGet pairRegistry.msgIDMap t1 = some i →
      mapGet pairRegistry.msgIDMap t2 = some i → t1 = t2)) :=
  ⟨rfl, by decide, C1_mutual_inverse demoEnv pairCalls pairRegistry rfl (by decide)⟩

/-! ## C2: marshal then unmarshal gives back the registered type -/

/-- C2, counterexample: in the registry built by `Register(1, &Ping{}, 7)` and
`Register(1, &Pong{}, 8)`, marshalling a `*Ping` gives the segments `[0, 1]` and `[]`,
and unmarshalling their concatenation returns a `*Pong`. -/
theorem C2_counterexample :
    Reached demoEnv clashCalls clashRegistry ∧
    mapGet clashRegistry.msgIDMap (some ping.typ) = some 1 ∧
    demoEnv.marshalBinary ping = some [.bytes [], .err none] ∧
    (Marshal demoEnv clashRegistry (some ping)).1 = .ok [[0, 1], []] ∧
    (Unmarshal demoEnv clashRegistry ([0, 1] ++ [])).1 = .ok pong ∧
    pong.typ ≠ ping.typ :=
  ⟨rfl, rfl, rfl, rfl, rfl, by decide⟩

/-- C2, amended: in a registry reached from `NewProcessor` by successful `Register`
calls, for a message of a type `t` registered with id `i`, where no call registered
another type under `i`, and whose `MarshalBinary` call returns a payload first:
`Marshal` returns two segments; and when the call of `UnmarshalBinary` on a value of
type `t` with that payload returns, `Unmarshal` of the concatenation reads the id `i`
and succeeds with a value of type `t`, which is the type of table slot `i`. -/
theorem C2_roundtrip (env : Env) (cs : List RegCall) (p : Proccessor)
    (h : Reached env cs p)
    (v : Value) (i : Nat) (hreg : mapGet p.msgIDMap (some v.typ) = some i)
    (hown : ∀ c ∈ cs, c.msgID = i → TypeOf c.msg = some v.typ)
    (b : List Nat) (rest : List RValue)
    (henc : env.marshalBinary v = some (.bytes b :: rest))
    (hdec : ∀ recv, recv.typ = v.typ → (env.unmarshalBinary recv b).isSome = true) :
    ∃ s0 s1 w, (Marshal env p (some v)).1 = .ok [s0, s1] ∧
      Uint16 ((s0 ++ s1).take 2) = i ∧
      (Unmarshal env p (s0 ++ s1)).1 = .ok w ∧ w.typ = v.typ ∧
      ∃ info, p.msgInfoArr i = some info ∧ info.msgType = some w.typ := by
  have hi := Reached_Inv h
  obtain ⟨e, he, hM, hU⟩ := hi.type_good hreg
  have hv : v.typ = .ptr e := by simpa using he
  obtain ⟨info, hinfo⟩ := hi.slot_of_map hreg
  have hty : info.msgType = some (.ptr e) := by
    obtain ⟨c, hc, hid, rfl⟩ := hi.arr_sound hinfo
    rw [infoOf, hown c hc hid, hv]
  have hrd : Uint16 ((PutUint16 i ++ b).take 2) = i :=
    Uint16_PutUint16 i b (hi.id_lt hreg)
  have hlen : 2 ≤ (PutUint16 i ++ b).length := by
    simp [PutUint16]
  have hdrop : (PutUint16 i ++ b).drop 2 = b := by
    simp [PutUint16]
  obtain ⟨out, hout⟩ := Option.isSome_iff_exists.1 (hdec (reflectNew e) (by rw [hv]; rfl))
  have hM1 : env.hasMethod v.typ .MarshalBinary = true := by
    rw [hv]
    exact hM
  refine ⟨PutUint16 i, b, { typ := .ptr e, data := out.1 }, ?_, hrd, ?_, hv.symm,
    info, hinfo, hty⟩
  · simp [Marshal, TypeOf, hreg, hM1, henc]
  · rw [Unmarshal_of_slot env p _ hlen info e (by rw [hrd]; exact hinfo) hty hU, hdrop,
      hout]

/-- C2, witness: a `*Pong` in the registry built by `Register(1, &Ping{}, 7)` and
`Register(2, &Pong{}, 8)`. -/
theorem C2_roundtrip_witness :
    Reached demoEnv pairCalls pairRegistry ∧
    mapGet pairRegistry.msgIDMap (some pong.typ) = some 2 ∧
    (∀ c ∈ pairCalls, c.msgID = 2 → TypeOf c.msg = some pong.typ) ∧
    demoEnv.marshalBinary pong = some (.bytes [] :: [.err none]) ∧
    (∀ recv, recv.typ = pong.typ → (demoEnv.unmarshalBinary recv []).isSome = true) ∧
    ∃ s0 s1 w, (Marshal demoEnv pairRegistry (some pong)).1 = .ok [s0, s1] ∧
      Uint16 ((s0 ++ s1).take 2) = 2 ∧
      (Unmarshal demoEnv pairRegistry (s0 ++ s1)).1 = .ok w ∧ w.typ = pong.typ ∧
      ∃ info, pairRegistry.msgInfoArr 2 = some info ∧ info.msgType = some w.typ :=
  ⟨rfl, rfl, by decide, rfl, fun _ _ => rfl,
    C2_roundtrip demoEnv pairCalls pairRegistry rfl pong 2 rfl (by decide) []
      [.err none] rfl (fun _ _ => rfl)⟩

/-! ## C3: registering a type a second time -/

/-- C3: for a `Register` call whose sample's type is present in the map, whatever id
and dispatch target are passed: in every registry reached from `NewProcessor` by
successful `Register` calls, `Register` panics with the duplicate-registration panic
and leaves the table and the map as they were (third part). The first two parts go
beyond the registries an execution produces: on any value of the struct the call
panics and changes nothing, with the duplicate-registration panic whenever the
sample's type is a pointer type with both codec methods. -/
theorem C3_duplicate_register (env : Env) (p : Proccessor) (msgID : Nat)
    (msg : Option Value) (chanRPC : Option Server)
    (hpresent : (mapGet p.msgIDMap (TypeOf msg)).isSome = true) :
    (∃ e, Register env p msgID msg chanRPC = (p, some e)) ∧
    (∀ t, TypeOf msg = some t → t.isPtr = true →
      env.hasMethod t .MarshalBinary = true → env.hasMethod t .UnmarshalBinary = true →
      Register env p msgID msg chanRPC = (p, some (.alreadyRegistered t))) ∧
    (∀ cs, Reached env cs p →
      ∃ t, TypeOf msg = some t ∧
        Register env p msgID msg chanRPC = (p, some (.alreadyRegistered t))) := by
  have part2 : ∀ t, TypeOf msg = some t → t.isPtr = true →
      env.hasMethod t .MarshalBinary = true → env.hasMethod t .UnmarshalBinary = true →
      Register env p msgID msg chanRPC = (p, some (.alreadyRegistered t)) := by
    intro t ht h1 h2 h3
    rw [ht] at hpresent
    simp [Register, ht, h1, h2, h3, hpresent]
  refine ⟨?_, part2, ?_⟩
  · cases ht : TypeOf msg with
    | none => exact ⟨.pointerRequired, by simp [Register, ht]⟩
    | some t =>
      rw [ht] at hpresent
      simp only [Register, ht, hpresent, if_true]
      split_ifs <;> exact ⟨_, rfl⟩
  · intro cs hcs
    have hi := Reached_Inv hcs
    obtain ⟨i, hget⟩ := Option.isSome_iff_exists.1 hpresent
    obtain ⟨c, hc, hty, _⟩ := hi.map_sound _ _ hget
    obtain ⟨_, u, s, hu, hptr, hM, hU, _⟩ := hi.good c hc
    have htu : TypeOf msg = some u.typ := by
      rw [← hty, hu]
      rfl
    exact ⟨u.typ, htu, part2 u.typ htu hptr hM hU⟩

/-- C3, witness: registering a `*Ping` again, with id 2 and a nil dispatcher, in the
registry built by `Register(1, &Ping{}, 7)`. -/
theorem C3_duplicate_register_witness :
    Reached demoEnv pingCalls pingRegistry ∧
    (mapGet pingRegistry.msgIDMap (TypeOf (some ping))).isSome = true ∧
    ∃ t, TypeOf (some ping) = some t ∧
      Register demoEnv pingRegistry 2 (some ping) none
        = (pingRegistry, some (.alreadyRegistered t)) :=
  ⟨rfl, rfl, (C3_duplicate_register demoEnv pingRegistry 2 (some ping) none rfl).2.2
    pingCalls rfl⟩

/-! ## C4: routing a message of a registered type -/

/-- C4, counterexample: `*Ping` is registered with dispatcher 7, then `*Pong` with
dispatcher 8 under the same id 1; routing a `*Ping` calls dispatcher 8 and never
dispatcher 7. -/
theorem C4_counterexample :
    Reached demoEnv clashCalls clashRegistry ∧
    clashCalls.head? = some { msgID := 1, msg := some ping, chanRPC := some ⟨7⟩ } ∧
    Route demoEnv clashRegistry (some ping) none
      = (.ok (), [.readTable 1, .dispatch ⟨8⟩ (some pingT) (some ping) none]) ∧
    (⟨8⟩ : Server) ≠ ⟨7⟩ :=
  ⟨rfl, rfl, rfl, by decide⟩

/-- C4, amended: in a registry reached from `NewProcessor` by successful `Register`
calls whose ids are pairwise distinct, for a message whose type was registered by a
call with dispatch target `D`, `Route` calls `D` exactly once, with the message's
type, the message and the context as given, calls no other target, and returns the
result of that call. -/
theorem C4_route_dispatches (env : Env) (cs : List RegCall) (p : Proccessor)
    (h : Reached env cs p) (hn : (cs.map (fun c => c.msgID)).Nodup)
    (c : RegCall) (hc : c ∈ cs) (D : Server) (hD : c.chanRPC = some D)
    (msg : Value) (hty : TypeOf c.msg = some msg.typ) (userData : Option Value) :
    Route env p (some msg) userData =
      (resOfError (env.call0 D (some msg.typ) (some msg) userData),
        [.readTable c.msgID, .dispatch D (some msg.typ) (some msg) userData]) := by
  have hi := Reached_Inv h
  have hmap := hi.map_complete c hc
  rw [hty] at hmap
  have harr := hi.arr_of_nodup hn hc
  simp [Route, TypeOf, hmap, harr, infoOf, hD]

/-- C4, witness: routing a `*Pong` in the registry built by `Register(1, &Ping{}, 7)`
and `Register(2, &Pong{}, 8)` calls dispatcher 8 once. -/
theorem C4_route_dispatches_witness :
    Reached demoEnv pairCalls pairRegistry ∧
    (pairCalls.map (fun c => c.msgID)).Nodup ∧
    Route demoEnv pairRegistry (some pong) (some ping) =
      (.ok (), [.readTable 2, .dispatch ⟨8⟩ (some pongT) (some pong) (some ping)]) :=
  ⟨rfl, by decide,
    C4_route_dispatches demoEnv pairCalls pairRegistry rfl (by decide)
      { msgID := 2, msg := some pong, chanRPC := some ⟨8⟩ } (by decide) ⟨8⟩ rfl pong rfl
      (some ping)⟩

/-! ## C5: the two segments `Marshal` returns -/

/-- C5: in a registry reached from `NewProcessor` by successful `Register` calls, for
a message whose type is registered with id `i` and whose `MarshalBinary` call returns
the bytes `b` first, `Marshal` succeeds with exactly two segments, `[i / 256, i % 256]` and
`b`. -/
theorem C5_marshal_segments (env : Env) (cs : List RegCall) (p : Proccessor)
    (h : Reached env cs p) (v : Value) (i : Nat)
    (hreg : mapGet p.msgIDMap (some v.typ) = some i)
    (b : List Nat) (rest : List RValue)
    (henc : env.marshalBinary v = some (.bytes b :: rest)) :
    (Marshal env p (some v)).1 = .ok [[i / 256, i % 256], b] := by
  have hi := Reached_Inv h
  obtain ⟨c, hc, hty, hid⟩ := hi.map_sound _ _ hreg
  obtain ⟨_, u, s, hu, _, hM, _, _⟩ := hi.good c hc
  have huv : u.typ = v.typ := by
    rw [hu] at hty
    simpa [TypeOf] using hty
  rw [huv] at hM
  simp [Marshal, TypeOf, hreg, hM, henc, PutUint16_eq i (hi.id_lt hreg)]

/-- C5, witness: `*Ping` registered with id 1 and an empty payload give `[0, 1]` and
`[]`. -/
theorem C5_marshal_segments_witness :
    Reached demoEnv pingCalls pingRegistry ∧
    mapGet pingRegistry.msgIDMap (some ping.typ) = some 1 ∧
    demoEnv.marshalBinary ping = some (.bytes [] :: [.err none]) ∧
    (Marshal demoEnv pingRegistry (some ping)).1 = .ok [[0, 1], []] :=
  ⟨rfl, rfl, rfl,
    C5_marshal_segments demoEnv pingCalls pingRegistry rfl ping 1 rfl [] [.err none] rfl⟩

/-! ## C6: frames shorter than the id prefix -/

/-- C6: for every registry state and every frame of length 0 or 1, `Unmarshal`
returns the "data length < 2" error with no message and no panic, and performs no
effect at all: no table read, no allocation, no decode call. -/
theorem C6_short_frame (env : Env) (p : Proccessor) (data : List Nat)
    (h : data.length < 2) :
    Unmarshal env p data = (.error .unmarshalShort, []) := by
  simp [Unmarshal, h]

/-- C6, witness: the one-byte frame `[0]` in the registry built by
`Register(1, &Ping{}, 7)`. -/
theorem C6_short_frame_witness :
    [0].length < 2 ∧ Unmarshal demoEnv pingRegistry [0] = (.error .unmarshalShort, []) :=
  ⟨by decide, C6_short_frame demoEnv pingRegistry [0] (by decide)⟩

/-! ## C7: frames whose id was never registered -/

/-- C7: in a registry reached from `NewProcessor` by successful `Register` calls, for
every frame of two bytes or more whose first two bytes, read big-endian, give an id
that no successful call passed, `Unmarshal` returns the "invalid msgID" error with no
message; its only effect is the read of that table slot, so nothing is allocated and
no decode method is called. -/
theorem C7_unknown_id (env : Env) (cs : List RegCall) (p : Proccessor)
    (h : Reached env cs p) (data : List Nat) (hlen : 2 ≤ data.length)
    (hid : ∀ c ∈ cs, c.msgID ≠ Uint16 (data.take 2)) :
    Unmarshal env p data =
      (.error (.unmarshalInvalidID (Uint16 (data.take 2))),
        [.readTable (Uint16 (data.take 2))]) := by
  have hi := Reached_Inv h
  have hnone := hi.arr_none hid
  have hl : ¬ data.length < 2 := by omega
  simp [Unmarshal, hl, hnone]

/-- C7, witness: the frame `[0xFF, 0xFF]` in the registry built by
`Register(1, &Ping{}, 7)`, where id 65535 is free. -/
theorem C7_unknown_id_witness :
    Reached demoEnv pingCalls pingRegistry ∧
    2 ≤ [255, 255].length ∧
    (∀ c ∈ pingCalls, c.msgID ≠ Uint16 ([255, 255].take 2)) ∧
    Unmarshal demoEnv pingRegistry [255, 255] =
      (.error (.unmarshalInvalidID 65535), [.readTable 65535]) :=
  ⟨rfl, by decide, by decide,
    C7_unknown_id demoEnv pingCalls pingRegistry rfl [255, 255] (by decide) (by decide)⟩

/-! ## C8: routing a message of an unregistered type -/

/-- C8: in a registry reached from `NewProcessor` by successful `Register` calls, for
the nil message and for every message whose type no successful call passed, `Route`
returns the "not registered" error of the map lookup and performs no effect, so no
dispatch target is called. -/
theorem C8_route_unregistered (env : Env) (cs : List RegCall) (p : Proccessor)
    (h : Reached env cs p) (msg userData : Option Value)
    (hty : msg = none ∨ ∀ c ∈ cs, TypeOf c.msg ≠ TypeOf msg) :
    Route env p msg userData = (.error (.routeNotRegistered (TypeOf msg)), []) := by
  have hi := Reached_Inv h
  have hnone : mapGet p.msgIDMap (TypeOf msg) = none := by
    cases hg : mapGet p.msgIDMap (TypeOf msg) with
    | none => rfl
    | some i =>
      exfalso
      obtain ⟨c, hc, hct, _⟩ := hi.map_sound _ _ hg
      rcases hty with hnil | hty
      · obtain ⟨_, u, s, hu, _⟩ := hi.good c hc
        rw [hnil, hu] at hct
        simp [TypeOf] at hct
      · exact hty c hc hct
  simp [Route, hnone]

/-- C8, witness: routing a `*Pong` in the registry built by `Register(1, &Ping{}, 7)`. -/
theorem C8_route_unregistered_witness :
    Reached demoEnv pingCalls pingRegistry ∧
    (∀ c ∈ pingCalls, TypeOf c.msg ≠ TypeOf (some pong)) ∧
    Route demoEnv pingRegistry (some pong) none =
      (.error (.routeNotRegistered (some pongT)), []) :=
  ⟨rfl, by decide,
    C8_route_unregistered demoEnv pingCalls pingRegistry rfl (some pong) none
      (Or.inr (by decide))⟩

/-! ## C9: when `Register` panics -/

/-- C9: on a registry whose map is allocated, as `NewProcessor` makes it, `Register`
panics if and only if the sample is nil, or its type is not a pointer, or lacks
`MarshalBinary`, or lacks `UnmarshalBinary`, or is already in the map, or the
dispatch target is nil; in every other case it succeeds, whatever the id. -/
theorem C9_register_panics_iff (env : Env) (p : Proccessor) (msgID : Nat)
    (msg : Option Value) (chanRPC : Option Server)
    (hmap : p.msgIDMap.isSome = true) :
    (Register env p msgID msg chanRPC).2 ≠ none ↔
      (TypeOf msg = none ∨
        (∃ t, TypeOf msg = some t ∧
          (t.isPtr = false ∨ env.hasMethod t .MarshalBinary = false ∨
            env.hasMethod t .UnmarshalBinary = false ∨
            (mapGet p.msgIDMap (some t)).isSome = true)) ∨
        chanRPC = none) := by
  obtain ⟨m, hm⟩ := Option.isSome_iff_exists.1 hmap
  cases ht : TypeOf msg with
  | none => simp [Register, ht]
  | some t =>
    simp only [Register, ht, hm]
    cases h1 : t.isPtr <;> cases h2 : env.hasMethod t .MarshalBinary <;>
      cases h3 : env.hasMethod t .UnmarshalBinary <;>
      cases h4 : mapGet (some m) (some t) <;> cases chanRPC <;> simp [h1, h2, h3, h4]

/-- C9, witness: a nil sample makes `Register` panic on the fresh registry. -/
theorem C9_register_panics_iff_witness :
    NewProcessor.msgIDMap.isSome = true ∧
    (Register demoEnv NewProcessor 1 none (some ⟨7⟩)).2 ≠ none :=
  ⟨rfl, (C9_register_panics_iff demoEnv NewProcessor 1 none (some ⟨7⟩) rfl).2 (Or.inl rfl)⟩

/-! ## C10: a failure reported by the encode method -/

/-- C10, the code at the failing input: `*Ping` is registered with id 1 and its
`MarshalBinary` returns nil bytes and a non-nil error; `Marshal` returns the two
segments `[0, 1]` and `[]` with a nil error, not the "MarshalBinary failed" error. -/
theorem C10_marshal_ignores_encode_error :
    Reached failingEnv pingCalls pingRegistry ∧
    failingEnv.marshalBinary ping = some [.bytes [], .err (some "encode failed")] ∧
    Marshal failingEnv pingRegistry (some ping) = (.ok [[0, 1], []], [.encode ping]) ∧
    Marshal failingEnv pingRegistry (some ping)
      ≠ (.error (.marshalFailed pingT), [.encode ping]) :=
  ⟨rfl, rfl, rfl, by simp [Marshal, failingEnv, demoEnv, pingRegistry, Register, TypeOf,
    mapGet, NewProcessor, ping, pingT, RType.isPtr]⟩

/-! ## C11: marshalling a message of an unregistered type -/

/-- C11: for every registry, so for every one reached from `NewProcessor` by
successful `Register` calls, and every message whose type is absent from the map,
`Marshal` returns the "msgID not found" error with no segments and performs no
effect, so `MarshalBinary` is not called. -/
theorem C11_marshal_unregistered (env : Env) (p : Proccessor) (msg : Option Value)
    (h : mapGet p.msgIDMap (TypeOf msg) = none) :
    Marshal env p msg = (.error (.marshalIDNotFound (TypeOf msg)), []) := by
  simp [Marshal, h]

/-- C11, witness: marshalling a `*Pong` in the registry built by
`Register(1, &Ping{}, 7)`. -/
theorem C11_marshal_unregistered_witness :
    Reached demoEnv pingCalls pingRegistry ∧
    mapGet pingRegistry.msgIDMap (TypeOf (some pong)) = none ∧
    Marshal demoEnv pingRegistry (some pong)
      = (.error (.marshalIDNotFound (some pongT)), []) :=
  ⟨rfl, rfl, C11_marshal_unregistered demoEnv pingRegistry (some pong) rfl⟩

/-! ## C12: what `Unmarshal` does with a known id -/

theorem Uint16_take_two (data : List Nat) (hlen : 2 ≤ data.length)
    (hb : ∀ b ∈ data, b < 256) :
    Uint16 (data.take 2) = 256 * data.getD 0 0 + data.getD 1 0 := by
  match data, hlen, hb with
  | a :: b :: rest, _, hb =>
    have ha : a < 256 := hb a (by simp)
    have hb1 : b < 256 := hb b (by simp)
    simp only [Uint16, byte, List.take_succ_cons, List.take_zero, List.getD_cons_succ,
      List.getD_cons_zero]
    omega

/-- What `Unmarshal` does with a frame of two bytes or more whose id
`256 * frame[0] + frame[1]` has a non-empty slot of type `T`, in a registry built by
`Register` or whenever `T` is a pointer type that has a method named
`UnmarshalBinary`: it allocates a zero value of the element type of `T` and calls
`UnmarshalBinary` on it with exactly `frame[2:]`. If the call returns, the instance,
of type `T`, is returned with a nil error, whatever results the call returned; if the
call panics, so does `Unmarshal`. -/
theorem Unmarshal_known_id (env : Env) (p : Proccessor) (data : List Nat)
    (hlen : 2 ≤ data.length) (hb : ∀ b ∈ data, b < 256)
    (info : MsgInfo) (T : RType)
    (hslot : p.msgInfoArr (256 * data.getD 0 0 + data.getD 1 0) = some info)
    (hT : info.msgType = some T)
    (hreg : (∃ cs, Reached env cs p) ∨
      (T.isPtr = true ∧ env.hasMethod T .UnmarshalBinary = true)) :
    ∃ e, T = .ptr e ∧
      Unmarshal env p data =
        (match env.unmarshalBinary (reflectNew e) (data.drop 2) with
          | none => .panic .reflectCall
          | some out => .ok { typ := T, data := out.1 },
          [.readTable (256 * data.getD 0 0 + data.getD 1 0), .alloc e,
            .decode (reflectNew e) (data.drop 2)]) := by
  have hid := Uint16_take_two data hlen hb
  have hgood : ∃ e, T = .ptr e ∧ env.hasMethod (.ptr e) .UnmarshalBinary = true := by
    rcases hreg with ⟨cs, hcs⟩ | ⟨hptr, hU⟩
    · obtain ⟨e, D, he, _, _, hU⟩ := (Reached_Inv hcs).slot_good hslot
      rw [hT] at he
      exact ⟨e, by simpa using he, hU⟩
    · obtain ⟨e, he⟩ := RType.eq_ptr_of_isPtr hptr
      exact ⟨e, he, he ▸ hU⟩
  obtain ⟨e, he, hU⟩ := hgood
  refine ⟨e, he, ?_⟩
  rw [← hid] at hslot ⊢
  rw [he] at hT ⊢
  exact Unmarshal_of_slot env p data hlen info e hslot hT hU

/-- C12, the code at the failing input: `*Ping` is registered with id 1; its method
named `UnmarshalBinary` takes no parameter, so `Register` accepts the type by the
name and the reflective call with one `[]byte` panics. Slot 1 is non-empty with type
`*Ping`, and `Unmarshal` of the frame `[0, 1, 9]` panics at that call instead of
returning the instance with a nil error. -/
theorem C12_unmarshal_panics_at_call :
    Reached brokenEnv pingCalls pingRegistry ∧
    pingRegistry.msgInfoArr (256 * 0 + 1)
      = some { msgType := some pingT, msgRouter := some ⟨7⟩ } ∧
    brokenEnv.hasMethod pingT .UnmarshalBinary = true ∧
    brokenEnv.unmarshalBinary (reflectNew (.named 0)) [9] = none ∧
    Unmarshal brokenEnv pingRegistry [0, 1, 9] =
      (.panic .reflectCall,
        [.readTable 1, .alloc (.named 0), .decode (reflectNew (.named 0)) [9]]) :=
  ⟨rfl, rfl, rfl, rfl, rfl⟩

/-! ## C13: a registered entry under later registrations -/

theorem Register_keeps_entry (env : Env) (p : Proccessor) (c : RegCall)
    (t : RType) (i : Nat) (hmap : mapGet p.msgIDMap (some t) = some i) :
    mapGet (Register env p c.msgID c.msg c.chanRPC).1.msgIDMap (some t) = some i ∧
    (∀ j, ((Register env p c.msgID c.msg c.chanRPC).2 = none → c.msgID ≠ j) →
      (Register env p c.msgID c.msg c.chanRPC).1.msgInfoArr j = p.msgInfoArr j) := by
  have hsome : p.msgIDMap.isSome = true := by
    cases hm : p.msgIDMap with
    | none => simp [hm, mapGet] at hmap
    | some m => rfl
  rcases hr : Register env p c.msgID c.msg c.chanRPC with ⟨p1, _ | e⟩
  · obtain ⟨v, s, m, _, _, hm, _, _, _, hfree, rfl⟩ := Register_success hr
    have hne : some t ≠ some v.typ := by
      intro heq
      rw [hm, mapGet, heq, hfree] at hmap
      simp at hmap
    refine ⟨?_, ?_⟩
    · simp only [mapGet, Function.update_apply, if_neg hne]
      simpa [hm, mapGet] using hmap
    · intro j hj
      have hjc : j ≠ c.msgID := fun h => hj rfl h.symm
      simp [Function.update_apply, hjc]
  · have hun : (Register env p c.msgID c.msg c.chanRPC).1 = p :=
      Register_panic_unchanged hsome (by simp [hr])
    rw [hr] at hun
    simp only at hun
    subst hun
    exact ⟨hmap, fun _ _ => rfl⟩

theorem registerEach_keeps_map (env : Env) (p : Proccessor) (t : RType) (i : Nat)
    (calls : List RegCall) (hmap : mapGet p.msgIDMap (some t) = some i) :
    mapGet (registerEach env p calls).msgIDMap (some t) = some i := by
  induction calls generalizing p with
  | nil => exact hmap
  | cons c cs ih => exact ih _ (Register_keeps_entry env p c t i hmap).1

theorem registerEach_keeps_slot (env : Env) (p : Proccessor) (t : RType) (i : Nat)
    (info : MsgInfo) (calls : List RegCall)
    (hmap : mapGet p.msgIDMap (some t) = some i)
    (hslot : p.msgInfoArr i = some info)
    (hfree : i ∉ succeededIds env p calls) :
    (registerEach env p calls).msgInfoArr i = some info := by
  induction calls generalizing p with
  | nil => exact hslot
  | cons c cs ih =>
    obtain ⟨h1, h2⟩ := Register_keeps_entry env p c t i hmap
    simp only [registerEach]
    rcases hr : Register env p c.msgID c.msg c.chanRPC with ⟨p1, _ | e⟩
    · simp only [succeededIds, hr, List.mem_cons, not_or] at hfree
      rw [hr] at h1 h2
      refine ih p1 h1 ?_ hfree.2
      rw [h2 i (fun _ h => hfree.1 h.symm)]
      exact hslot
    · simp only [succeededIds, hr] at hfree
      rw [hr] at h1 h2
      refine ih p1 h1 ?_ hfree
      rw [h2 i (fun h => by simp at h)]
      exact hslot

/-- C13, counterexample: `*Ping` is registered with id 1 and dispatcher 7; after the
further successful call `Register(1, &Pong{}, 8)` slot 1 holds `*Pong` with
dispatcher 8, no longer the entry of `*Ping`. -/
theorem C13_counterexample :
    mapGet pingRegistry.msgIDMap (some pingT) = some 1 ∧
    pingRegistry.msgInfoArr 1 = some { msgType := some pingT, msgRouter := some ⟨7⟩ } ∧
    (registerEach demoEnv pingRegistry
      [{ msgID := 1, msg := some pong, chanRPC := some ⟨8⟩ }]).msgInfoArr 1
      = some { msgType := some pongT, msgRouter := some ⟨8⟩ } ∧
    ({ msgType := some pongT, msgRouter := some ⟨8⟩ } : MsgInfo)
      ≠ { msgType := some pingT, msgRouter := some ⟨7⟩ } :=
  ⟨rfl, rfl, rfl, by decide⟩

/-- C13, amended: once a type `t` is in the map with id `i` and slot `i` holds the
entry of `t` with target `D`, then after any further sequence of `Register` calls,
successful or failing, the lookup of `t` still yields `i`; slot `i` still holds that
entry provided none of the further calls that succeed passes the id `i`. -/
theorem C13_entry_kept (env : Env) (p : Proccessor) (t : RType) (i : Nat) (D : Server)
    (calls : List RegCall)
    (hmap : mapGet p.msgIDMap (some t) = some i)
    (hslot : p.msgInfoArr i = some { msgType := some t, msgRouter := some D }) :
    mapGet (registerEach env p calls).msgIDMap (some t) = some i ∧
    (i ∉ succeededIds env p calls →
      (registerEach env p calls).msgInfoArr i
        = some { msgType := some t, msgRouter := some D }) :=
  ⟨registerEach_keeps_map env p t i calls hmap,
    registerEach_keeps_slot env p t i _ calls hmap hslot⟩

/-- C13, witness: after `Register(1, &Ping{}, 7)`, a failing second registration of
`*Ping` under id 1 and a successful `Register(2, &Pong{}, 8)` leave the entry of
`*Ping` as it was. -/
theorem C13_entry_kept_witness :
    mapGet pingRegistry.msgIDMap (some pingT) = some 1 ∧
    pingRegistry.msgInfoArr 1 = some { msgType := some pingT, msgRouter := some ⟨7⟩ } ∧
    succeededIds demoEnv pingRegistry
      [{ msgID := 1, msg := some ping, chanRPC := some ⟨9⟩ },
       { msgID := 2, msg := some pong, chanRPC := some ⟨8⟩ }] = [2] ∧
    mapGet (registerEach demoEnv pingRegistry
      [{ msgID := 1, msg := some ping, chanRPC := some ⟨9⟩ },
       { msgID := 2, msg := some pong, chanRPC := some ⟨8⟩ }]).msgIDMap (some pingT)
      = some 1 ∧
    (registerEach demoEnv pingRegistry
      [{ msgID := 1, msg := some ping, chanRPC := some ⟨9⟩ },
       { msgID := 2, msg := some pong, chanRPC := some ⟨8⟩ }]).msgInfoArr 1
      = some { msgType := some pingT, msgRouter := some ⟨7⟩ } :=
  ⟨rfl, rfl, rfl,
    (C13_entry_kept demoEnv pingRegistry pingT 1 ⟨7⟩
      [{ msgID := 1, msg := some ping, chanRPC := some ⟨9⟩ },
       { msgID := 2, msg := some pong, chanRPC := some ⟨8⟩ }] rfl rfl).1,
    (C13_entry_kept demoEnv pingRegistry pingT 1 ⟨7⟩
      [{ msgID := 1, msg := some ping, chanRPC := some ⟨9⟩ },
       { msgID := 2, msg := some pong, chanRPC := some ⟨8⟩ }] rfl rfl).2 (by decide)⟩

/-! ## C14: the effect of a successful `Register` -/

/-- C14: after a successful `Register(id, sample, target)` on any registry state, the
lookup of the sample's type yields `id`; slot `id` holds the entry made of the
sample's type and of the target; every other slot and the map entry of every other
type are unchanged; and the result is the same for every sample of that type, so
nothing of the sample's contents is stored. -/
theorem C14_register_effect (env : Env) (p p1 : Proccessor) (msgID : Nat)
    (msg : Option Value) (chanRPC : Option Server)
    (h : Register env p msgID msg chanRPC = (p1, none)) :
    mapGet p1.msgIDMap (TypeOf msg) = some msgID ∧
    p1.msgInfoArr msgID = some { msgType := TypeOf msg, msgRouter := chanRPC } ∧
    (∀ j, j ≠ msgID → p1.msgInfoArr j = p.msgInfoArr j) ∧
    (∀ k, k ≠ TypeOf msg → mapGet p1.msgIDMap k = mapGet p.msgIDMap k) ∧
    (∀ other, TypeOf other = TypeOf msg →
      Register env p msgID other chanRPC = (p1, none)) := by
  obtain ⟨v, s, m, hv, hs, hm, hptr, hM, hU, hfree, rfl⟩ := Register_success h
  subst hv hs
  refine ⟨?_, ?_, ?_, ?_, ?_⟩
  · simp [mapGet, TypeOf]
  · simp [TypeOf]
  · intro j hj
    simp [Function.update_apply, hj]
  · intro k hk
    have hk1 : k ≠ some v.typ := hk
    simp [mapGet, hm, Function.update_apply, hk1]
  · intro other ho
    rw [← h]
    simp only [Register, ho]

/-- C14, witness: `Register(2, &Pong{}, 8)` on the registry built by
`Register(1, &Ping{}, 7)`. -/
theorem C14_register_effect_witness :
    Register demoEnv pingRegistry 2 (some pong) (some ⟨8⟩) = (pairRegistry, none) ∧
    mapGet pairRegistry.msgIDMap (TypeOf (some pong)) = some 2 ∧
    pairRegistry.msgInfoArr 2
      = some { msgType := TypeOf (some pong), msgRouter := some ⟨8⟩ } ∧
    pairRegistry.msgInfoArr 1 = pingRegistry.msgInfoArr 1 :=
  ⟨rfl,
    (C14_register_effect demoEnv pingRegistry pairRegistry 2 (some pong) (some ⟨8⟩) rfl).1,
    (C14_register_effect demoEnv pingRegistry pairRegistry 2 (some pong) (some ⟨8⟩) rfl).2.1,
    (C14_register_effect demoEnv pingRegistry pairRegistry 2 (some pong) (some ⟨8⟩)
      rfl).2.2.1 1 (by decide)⟩

/-! ## C15: the defensive branches of `Route` -/

/-- C15: in a registry reached from `NewProcessor` by successful `Register` calls,
every type in the map points at a non-empty slot whose dispatch target is not nil;
hence `Route` returns neither the error of the empty-slot branch nor the
"Invalid chanrpc" error, for any message. -/
theorem C15_route_defensive_branches (env : Env) (cs : List RegCall) (p : Proccessor)
    (h : Reached env cs p) :
    (∀ k i, mapGet p.msgIDMap k = some i →
      ∃ info D, p.msgInfoArr i = some info ∧ info.msgRouter = some D) ∧
    (∀ msg userData t, (Route env p msg userData).1 ≠ .error (.routeNoInfo t) ∧
      (Route env p msg userData).1 ≠ .error .routeInvalidChanrpc) := by
  have hi := Reached_Inv h
  have key : ∀ k i, mapGet p.msgIDMap k = some i →
      ∃ info D, p.msgInfoArr i = some info ∧ info.msgRouter = some D := by
    intro k i hk
    obtain ⟨info, hinfo⟩ := hi.slot_of_map hk
    obtain ⟨_, D, _, hD, _⟩ := hi.slot_good hinfo
    exact ⟨info, D, hinfo, hD⟩
  refine ⟨key, ?_⟩
  intro msg userData t
  cases hg : mapGet p.msgIDMap (TypeOf msg) with
  | none => simp [Route, hg]
  | some i =>
    obtain ⟨info, D, hinfo, hD⟩ := key _ _ hg
    simp only [Route, hg, hinfo, hD]
    cases env.call0 D (TypeOf msg) msg userData <;> simp [resOfError]

/-- C15, witness: the registry built by `Register(1, &Ping{}, 7)` and
`Register(1, &Pong{}, 8)`, where the two types even share a slot. -/
theorem C15_route_defensive_branches_witness :
    Reached demoEnv clashCalls clashRegistry ∧
    (∀ k i, mapGet clashRegistry.msgIDMap k = some i →
      ∃ info D, clashRegistry.msgInfoArr i = some info ∧ info.msgRouter = some D) ∧
    (∀ msg userData t,
      (Route demoEnv clashRegistry msg userData).1 ≠ .error (.routeNoInfo t) ∧
      (Route demoEnv clashRegistry msg userData).1 ≠ .error .routeInvalidChanrpc) :=
  ⟨rfl, C15_route_defensive_branches demoEnv clashCalls clashRegistry rfl⟩

/-! ## C17: distinct ids are the caller's obligation -/

/-- Whether `Register` succeeds does not depend on the contents of the table, so an
occupied slot is never refused; and in a registry reached from `NewProcessor` by
successful `Register` calls whose ids are pairwise distinct, the slot at the id of a
registered type holds that type, the type of a non-empty slot is mapped to the slot's
index, and `Unmarshal` of a frame that starts with the id of a registered type
returns an instance of that type when the call of its `UnmarshalBinary` returns, and
panics when that call panics. -/
theorem distinct_ids_registry (env : Env) (cs : List RegCall) (p : Proccessor)
    (h : Reached env cs p) (hn : (cs.map (fun c => c.msgID)).Nodup) :
    (∀ table msgID msg chanRPC,
      (Register env { p with msgInfoArr := table } msgID msg chanRPC).2
        = (Register env p msgID msg chanRPC).2) ∧
    (∀ t i, mapGet p.msgIDMap (some t) = some i →
      ∃ info, p.msgInfoArr i = some info ∧ info.msgType = some t) ∧
    (∀ i info, p.msgInfoArr i = some info → mapGet p.msgIDMap info.msgType = some i) ∧
    (∀ t i data, mapGet p.msgIDMap (some t) = some i → 2 ≤ data.length →
      Uint16 (data.take 2) = i →
      ∃ e, t = .ptr e ∧
        (Unmarshal env p data).1 =
          match env.unmarshalBinary (reflectNew e) (data.drop 2) with
          | none => .panic .reflectCall
          | some out => .ok { typ := t, data := out.1 }) := by
  have hi := Reached_Inv h
  have key : ∀ t i, mapGet p.msgIDMap (some t) = some i →
      ∃ info, p.msgInfoArr i = some info ∧ info.msgType = some t := by
    intro t i ht
    obtain ⟨c, hc, hty, hid⟩ := hi.map_sound _ i ht
    refine ⟨infoOf c, ?_, hty⟩
    rw [← hid]
    exact hi.arr_of_nodup hn hc
  refine ⟨?_, key, ?_, ?_⟩
  · intro table msgID msg chanRPC
    obtain ⟨m, hm⟩ := hi.alloc
    cases ht : TypeOf msg with
    | none => simp [Register, ht]
    | some t =>
      simp only [Register, ht, hm]
      cases h1 : t.isPtr <;> cases h2 : env.hasMethod t .MarshalBinary <;>
        cases h3 : env.hasMethod t .UnmarshalBinary <;>
        cases h4 : mapGet (some m) (some t) <;> cases chanRPC <;> simp [h1, h2, h3, h4]
  · intro i info hinfo
    obtain ⟨c, hc, hid, rfl⟩ := hi.arr_sound hinfo
    rw [← hid]
    exact hi.map_complete c hc
  · intro t i data ht hlen hid
    obtain ⟨info, hinfo, hty⟩ := key t i ht
    obtain ⟨e, _, he, _, _, hU⟩ := hi.slot_good hinfo
    have hte : t = .ptr e := by
      rw [hty] at he
      simpa using he
    rw [← hid] at hinfo
    rw [Unmarshal_of_slot env p data hlen info e hinfo he hU]
    exact ⟨e, hte, by rw [hte]⟩

/-- C17, the code at the failing input: `*Ping` and `*Pong` are registered with the
distinct ids 1 and 2; their methods named `UnmarshalBinary` take no parameter, so the
reflective call with one `[]byte` panics. `*Pong` is in the map with id 2 and slot 2
holds it, yet `Unmarshal` of the frame `[0, 2]`, which starts with that id, panics
instead of returning a `*Pong`. -/
theorem C17_unmarshal_panics_with_distinct_ids :
    Reached brokenEnv pairCalls pairRegistry ∧
    (pairCalls.map (fun c => c.msgID)).Nodup ∧
    mapGet pairRegistry.msgIDMap (some pongT) = some 2 ∧
    pairRegistry.msgInfoArr 2 = some { msgType := some pongT, msgRouter := some ⟨8⟩ } ∧
    Uint16 ([0, 2].take 2) = 2 ∧
    Unmarshal brokenEnv pairRegistry [0, 2] =
      (.panic .reflectCall,
        [.readTable 2, .alloc (.named 1), .decode (reflectNew (.named 1)) []]) :=
  ⟨rfl, by decide, rfl, rfl, rfl, rfl⟩

/-! ## C18: two types registered with the same id -/

theorem Inv.arr_of_last {env : Env} {pre post : List RegCall} {c : RegCall}
    {p : Proccessor} (hi : Inv env (pre ++ c :: post) p)
    (hlast : ∀ d ∈ post, d.msgID ≠ c.msgID) :
    p.msgInfoArr c.msgID = some (infoOf c) := by
  rw [hi.arr_last]
  have hpost : post.reverse.find? (fun d => decide (d.msgID = c.msgID)) = none := by
    rw [List.find?_eq_none]
    intro d hd
    simpa using hlast d (by simpa using hd)
  simp [List.find?_append, hpost]

/-- C18, counterexample: `*Ping` is registered with id 1 and dispatcher 7, then
`*Pong` with id 1 and dispatcher 8, and after them `*Pang` with id 1 and dispatcher
9. The frame `[0, 1]` unmarshals to a `*Pang`, not to a `*Pong`, and a `*Ping` is
routed to dispatcher 9, not to dispatcher 8. -/
theorem C18_counterexample :
    Reached demoEnv tripleCalls tripleRegistry ∧
    tripleCalls.take 2 =
      [{ msgID := 1, msg := some ping, chanRPC := some ⟨7⟩ },
       { msgID := 1, msg := some pong, chanRPC := some ⟨8⟩ }] ∧
    (Unmarshal demoEnv tripleRegistry [0, 1]).1 = .ok pang ∧
    pang.typ ≠ pongT ∧
    Route demoEnv tripleRegistry (some ping) none =
      (.ok (), [.readTable 1, .dispatch ⟨9⟩ (some pingT) (some ping) none]) ∧
    (⟨9⟩ : Server) ≠ ⟨8⟩ :=
  ⟨rfl, rfl, rfl, by decide, rfl, by decide⟩

/-- C18, amended: two calls `cA` and `cB` pass the same id `i`, `cA` earlier with type
`A`, `cB` later with type `B` and target `DB`, and no call after `cB` passes `i`. In
the registry reached, both types are in the map with id `i` and slot `i` holds the
entry of `B`: `Unmarshal` of a frame that starts with `i` returns an instance of `B`
when the call of `UnmarshalBinary` on a value of type `B` with the payload returns,
`Marshal` of a message of type `A` emits the prefix of `i`, and `Route` of a message
of type `A` makes its one dispatcher call to `DB`. -/
theorem C18_shared_id (env : Env) (pre post : List RegCall) (cA cB : RegCall)
    (p : Proccessor) (h : Reached env (pre ++ cB :: post) p)
    (hA : cA ∈ pre) (hid : cA.msgID = cB.msgID)
    (hlast : ∀ d ∈ post, d.msgID ≠ cB.msgID)
    (A B : RType) (hTA : TypeOf cA.msg = some A) (hTB : TypeOf cB.msg = some B)
    (DB : Server) (hDB : cB.chanRPC = some DB) :
    mapGet p.msgIDMap (some A) = some cB.msgID ∧
    mapGet p.msgIDMap (some B) = some cB.msgID ∧
    p.msgInfoArr cB.msgID = some { msgType := some B, msgRouter := some DB } ∧
    (∀ data, 2 ≤ data.length → Uint16 (data.take 2) = cB.msgID →
      (∀ recv, recv.typ = B → (env.unmarshalBinary recv (data.drop 2)).isSome = true) →
      ∃ w, (Unmarshal env p data).1 = .ok w ∧ w.typ = B) ∧
    (∀ v b rest, v.typ = A → env.marshalBinary v = some (.bytes b :: rest) →
      (Marshal env p (some v)).1 = .ok [[cB.msgID / 256, cB.msgID % 256], b]) ∧
    (∀ v userData, v.typ = A →
      Route env p (some v) userData =
        (resOfError (env.call0 DB (some A) (some v) userData),
          [.readTable cB.msgID, .dispatch DB (some A) (some v) userData])) := by
  have hi := Reached_Inv h
  have hmA : mapGet p.msgIDMap (some A) = some cB.msgID := by
    rw [← hTA, ← hid]
    exact hi.map_complete cA (by simp [hA])
  have hmB : mapGet p.msgIDMap (some B) = some cB.msgID := by
    rw [← hTB]
    exact hi.map_complete cB (by simp)
  have hslot : p.msgInfoArr cB.msgID = some { msgType := some B, msgRouter := some DB } := by
    rw [hi.arr_of_last hlast, infoOf, hTB, hDB]
  obtain ⟨eA, hAe, hMA, _⟩ := hi.type_good hmA
  obtain ⟨eB, hBe, _, hUB⟩ := hi.type_good hmB
  have hA1 : A = .ptr eA := by simpa using hAe
  have hB1 : B = .ptr eB := by simpa using hBe
  refine ⟨hmA, hmB, hslot, ?_, ?_, ?_⟩
  · intro data hlen hd hdec
    obtain ⟨out, hout⟩ :=
      Option.isSome_iff_exists.1 (hdec (reflectNew eB) (by rw [hB1]; rfl))
    rw [← hd] at hslot
    rw [Unmarshal_of_slot env p data hlen _ eB hslot (by simp [hB1]) hUB, hout]
    exact ⟨_, rfl, hB1.symm⟩
  · intro v b rest hv henc
    have hM : env.hasMethod v.typ .MarshalBinary = true := by
      rw [hv, hA1]
      exact hMA
    have hreg : mapGet p.msgIDMap (some v.typ) = some cB.msgID := by
      rw [hv]
      exact hmA
    simp [Marshal, TypeOf, hreg, hM, henc, PutUint16_eq _ (hi.id_lt hmA)]
  · intro v userData hv
    simp [Route, TypeOf, hv, hmA, hslot]

/-- C18, witness: `Register(1, &Ping{}, 7)` then `Register(1, &Pong{}, 8)`: the frame
`[0, 1]` unmarshals to a `*Pong`, a `*Ping` marshals with prefix `[0, 1]` and is
routed to dispatcher 8. -/
theorem C18_shared_id_witness :
    Reached demoEnv clashCalls clashRegistry ∧
    (∃ w, (Unmarshal demoEnv clashRegistry [0, 1]).1 = .ok w ∧ w.typ = pongT) ∧
    (Marshal demoEnv clashRegistry (some ping)).1 = .ok [[0, 1], []] ∧
    Route demoEnv clashRegistry (some ping) none =
      (.ok (), [.readTable 1, .dispatch ⟨8⟩ (some pingT) (some ping) none]) :=
  ⟨rfl,
    (C18_shared_id demoEnv [{ msgID := 1, msg := some ping, chanRPC := some ⟨7⟩ }] []
      { msgID := 1, msg := some ping, chanRPC := some ⟨7⟩ }
      { msgID := 1, msg := some pong, chanRPC := some ⟨8⟩ } clashRegistry rfl (by decide)
      rfl (by decide) pingT pongT rfl rfl ⟨8⟩ rfl).2.2.2.1 [0, 1] (by decide) rfl
      (fun _ _ => rfl),
    (C18_shared_id demoEnv [{ msgID := 1, msg := some ping, chanRPC := some ⟨7⟩ }] []
      { msgID := 1, msg := some ping, chanRPC := some ⟨7⟩ }
      { msgID := 1, msg := some pong, chanRPC := some ⟨8⟩ } clashRegistry rfl (by decide)
      rfl (by decide) pingT pongT rfl rfl ⟨8⟩ rfl).2.2.2.2.1 ping [] [.err none] rfl rfl,
    (C18_shared_id demoEnv [{ msgID := 1, msg := some ping, chanRPC := some ⟨7⟩ }] []
      { msgID := 1, msg := some ping, chanRPC := some ⟨7⟩ }
      { msgID := 1, msg := some pong, chanRPC := some ⟨8⟩ } clashRegistry rfl (by decide)
      rfl (by decide) pingT pongT rfl rfl ⟨8⟩ rfl).2.2.2.2.2 ping none rfl⟩

/-! ## C19: the method re-checks of the serving methods -/

/-- C19: in a registry reached from `NewProcessor` by successful `Register` calls,
`Unmarshal` returns its "should have 'UnmarshalBinary' method" error for no frame,
and `Marshal` returns its "should have 'MarshalBinary' method" error for no
message. -/
theorem C19_method_rechecks_dead (env : Env) (cs : List RegCall) (p : Proccessor)
    (h : Reached env cs p) :
    (∀ data t, (Unmarshal env p data).1 ≠ .error (.unmarshalNoMethod t)) ∧
    (∀ msg t, (Marshal env p msg).1 ≠ .error (.marshalNoMethod t)) := by
  have hi := Reached_Inv h
  refine ⟨?_, ?_⟩
  · intro data t
    by_cases hlen : data.length < 2
    · simp [Unmarshal, hlen]
    · cases hs : p.msgInfoArr (Uint16 (data.take 2)) with
      | none => simp [Unmarshal, hlen, hs]
      | some info =>
        obtain ⟨e, _, he, _, _, hU⟩ := hi.slot_good hs
        rw [Unmarshal_of_slot env p data (by omega) info e hs he hU]
        cases env.unmarshalBinary (reflectNew e) (data.drop 2) <;> simp
  · intro msg t
    cases hg : mapGet p.msgIDMap (TypeOf msg) with
    | none => simp [Marshal, hg]
    | some i =>
      obtain ⟨e, he, hM, _⟩ := hi.type_good hg
      cases msg with
      | none => simp [TypeOf] at he
      | some v =>
        have hv : v.typ = .ptr e := by simpa [TypeOf] using he
        rw [← hv] at hM
        simp only [Marshal, hg, hM]
        rcases env.marshalBinary v with _ | _ | ⟨r0, rest⟩
        · simp
        · simp
        · cases r0 <;> simp

/-- C19, witness: the registry built by `Register(1, &Ping{}, 7)`. -/
theorem C19_method_rechecks_dead_witness :
    Reached demoEnv pingCalls pingRegistry ∧
    (∀ data t, (Unmarshal demoEnv pingRegistry data).1 ≠ .error (.unmarshalNoMethod t)) ∧
    (∀ msg t, (Marshal demoEnv pingRegistry msg).1 ≠ .error (.marshalNoMethod t)) :=
  ⟨rfl, C19_method_rechecks_dead demoEnv pingCalls pingRegistry rfl⟩

/-! ## C20: the two-byte id prefix -/

/-- C20: for every id in [0, 65535] the prefix `Marshal` writes is
`[id / 256, id % 256]`; read back the way `Unmarshal` reads it, as
`256 * b0 + b1`, also with a payload behind it, it gives `id` again; two ids in that
range with the same prefix are equal; and what `Unmarshal` reads from any bytes is
below 65536, the size of the table. -/
theorem C20_id_prefix_lossless (i j : Nat) (hi : i < 65536) (hj : j < 65536) :
    PutUint16 i = [i / 256, i % 256] ∧
    256 * (i / 256) + i % 256 = i ∧
    (∀ payload, Uint16 ((PutUint16 i ++ payload).take 2) = i) ∧
    (PutUint16 i = PutUint16 j → i = j) ∧
    (∀ b : List Nat, Uint16 b < 65536) := by
  refine ⟨PutUint16_eq i hi, by omega, fun payload => Uint16_PutUint16 i payload hi, ?_, ?_⟩
  · intro hp
    rw [PutUint16_eq i hi, PutUint16_eq j hj] at hp
    simp only [List.cons.injEq, and_true] at hp
    omega
  · intro b
    exact Nat.mod_lt _ (by decide)

/-- C20, witness: the ids 65535 and 258. -/
theorem C20_id_prefix_lossless_witness :
    65535 < 65536 ∧ 258 < 65536 ∧
    PutUint16 65535 = [255, 255] ∧
    Uint16 ((PutUint16 65535 ++ [7]).take 2) = 65535 ∧
    (PutUint16 65535 = PutUint16 258 → 65535 = 258) :=
  ⟨by decide, by decide,
    (C20_id_prefix_lossless 65535 258 (by decide) (by decide)).1,
    (C20_id_prefix_lossless 65535 258 (by decide) (by decide)).2.2.1 [7],
    (C20_id_prefix_lossless 65535 258 (by decide) (by decide)).2.2.2.1⟩

end LeafProcessor
